import Mathlib

/-!
Verification development for the gridsync synchronization engine
(`gridsync/watcher.py`).  The watcher's data model and operations are
embedded shallowly: filesystem state, remote snapshot store state and the
watcher object are explicit structures, side effects are recorded as an
explicit effect trace, and Python exceptions are modelled by a result type
that carries the state reached at raise time.

The remote storage gateway (`self.tahoe`: `ls_json`, `get_metadata`,
`get`, `backup`) is not part of the repository sources; it is modelled
from the spec's RemoteStore interface (each such definition is marked
`Modelled from the spec:`).
-/

namespace Gridsync

/-! ### String and path helpers (Python `os.path` / `str` semantics)

All string manipulation is implemented by structural recursion over
`String.data` so that every definition evaluates inside the kernel. -/

/-- Fuel-driven worker for `pySplit`: splits `l` at every non-overlapping
occurrence of `sep`, scanning left to right (Python `str.split(sep)`). -/
def splitOnGo (sep : List Char) : Nat → List Char → List Char → List (List Char)
  | 0, l, acc => [acc.reverse ++ l]
  | _ + 1, [], acc => [acc.reverse]
  | fuel + 1, c :: rest, acc =>
    if sep.isPrefixOf (c :: rest) then
      acc.reverse :: splitOnGo sep fuel ((c :: rest).drop sep.length) []
    else
      splitOnGo sep fuel rest (c :: acc)

/-- Python `s.split(sep)` for a non-empty separator. -/
def pySplit (s sep : String) : List String :=
  (splitOnGo sep.data s.data.length s.data []).map String.mk

/-- Whether `sub` occurs somewhere in `s`: Python `sub in s`. -/
def strContains (s sub : String) : Bool :=
  (pySplit s sub).length != 1

/-- Whether `pre` is a prefix of `s`. -/
def strStartsWith (s pre : String) : Bool :=
  pre.data.isPrefixOf s.data

/-- Whether `suf` is a suffix of `s`. -/
def strEndsWith (s suf : String) : Bool :=
  suf.data.reverse.isPrefixOf s.data.reverse

/-- Python `os.path.join(a, b)` on POSIX: a later absolute component
discards the earlier one. -/
def pyJoin (a b : String) : String :=
  if strStartsWith b "/" then b
  else if a = "" then b
  else if strEndsWith a "/" then a ++ b
  else a ++ "/" ++ b

/-- Index of the last occurrence of `c` in `l`, if any. -/
def lastIdxOf (c : Char) (l : List Char) : Option Nat :=
  ((l.enum.filter (fun q => q.2 = c)).map (fun q => q.1)).getLast?

/-- Python `os.path.splitext` on POSIX: split off the extension at the last
dot of the base name, unless the base name consists only of leading dots. -/
def splitext (p : String) : String × String :=
  let l := p.data
  let sepIdx? := lastIdxOf '/' l
  match lastIdxOf '.' l with
  | none => (p, "")
  | some d =>
    let start := match sepIdx? with | none => 0 | some s => s + 1
    if start ≤ d then
      if ((l.drop start).take (d - start)).any (fun c => c ≠ '.') then
        (String.mk (l.take d), String.mk (l.drop d))
      else (p, "")
    else (p, "")

/-- Drop trailing `'/'` characters (used by `dirname`). -/
def dropTrailingSlashes (l : List Char) : List Char :=
  (l.reverse.dropWhile (fun c => c = '/')).reverse

/-- Python `os.path.dirname` on POSIX. -/
def dirname (p : String) : String :=
  match lastIdxOf '/' p.data with
  | none => ""
  | some i =>
    let head := p.data.take (i + 1)
    if head.all (fun c => c = '/') then String.mk head
    else String.mk (dropTrailingSlashes head)

/-- Worker for `ancestors`: successive `'/'`-joined accumulations. -/
def ancestorsGo (base : String) : List String → List String
  | [] => []
  | part :: rest =>
    let q := base ++ "/" ++ part
    q :: ancestorsGo q rest

/-- All `'/'`-prefixes of a path, shortest first; for `"/L/a/b"` this is
`["/L", "/L/a", "/L/a/b"]`.  Used to model `os.makedirs` creating every
missing intermediate directory. -/
def ancestors (p : String) : List String :=
  match pySplit p "/" with
  | [] => []
  | first :: rest =>
    if first = "" then ancestorsGo "" rest else first :: ancestorsGo first rest

/-! ### Timestamp tags (`datetime.fromtimestamp(t).strftime(...)`)

`datetime.datetime.fromtimestamp` converts an epoch timestamp to a civil
date-time; the model fixes the timezone to UTC (the convention the spec's
own worked example uses).  The civil-date computation is the standard
era/day-of-era algorithm, written with euclidean division so it is exact
for all integer timestamps. -/

/-- Decimal rendering of a nonnegative integer, zero-padded to `width`. -/
def padZ (width : Nat) (n : ℤ) : String :=
  let s := toString n.toNat
  String.mk (List.replicate (width - s.length) '0') ++ s

/-- Format an epoch timestamp (integer seconds, UTC) in the watcher's tag
format `YYYY-MM-DD HH-MM-SS` (`strftime('%Y-%m-%d %H-%M-%S')`). -/
def fmtTimestamp (t : ℤ) : String :=
  let days := t.ediv 86400
  let secs := t.emod 86400
  let hh := secs.ediv 3600
  let mm := (secs.emod 3600).ediv 60
  let ss := secs.emod 60
  let z := days + 719468
  let era := z.ediv 146097
  let doe := z.emod 146097
  let yoe := (doe - doe.ediv 1460 + doe.ediv 36524 - doe.ediv 146096).ediv 365
  let doy := doe - (365 * yoe + yoe.ediv 4 - yoe.ediv 100)
  let mp := (5 * doy + 2).ediv 153
  let d := doy - (153 * mp + 2).ediv 5 + 1
  let m := mp + (if mp < 10 then 3 else -9)
  let y := yoe + era * 400 + (if m ≤ 2 then 1 else 0)
  padZ 4 y ++ "-" ++ padZ 2 m ++ "-" ++ padZ 2 d ++ " " ++
    padZ 2 hh ++ "-" ++ padZ 2 mm ++ "-" ++ padZ 2 ss

/-- Python `int()` applied to a (possibly fractional) timestamp:
truncation toward zero. -/
def pyInt (q : ℚ) : ℤ :=
  q.num.tdiv q.den

/-- Lexicographic "less than or equal" on character lists by code point:
exactly how Python compares two `str` values. -/
def lexLe : List Char → List Char → Bool
  | [], _ => true
  | _ :: _, [] => false
  | a :: as, b :: bs => if a = b then lexLe as bs else decide (a < b)

/-- Python string comparison `a <= b`. -/
def strLe (a b : String) : Bool :=
  lexLe a.data b.data

/-! ### Data model -/

/-- A node of the local filesystem: a directory, or a regular file with
its mtime (epoch seconds, possibly fractional), size and content. -/
inductive Node
  | dir
  | file (mtime : ℚ) (size : ℕ) (content : String)
deriving DecidableEq

/-- The local filesystem: an association list from absolute path to node
(first binding wins; well-formed states bind each path once). -/
abbrev Fs := List (String × Node)

/-- One entry of the remote metadata listing (`tahoe.get_metadata`):
`{'type': 'dirnode'}` or `{'type': 'filenode', 'mtime': …, 'size': …,
'uri': …}`, keyed by path relative to the snapshot root. -/
inductive RMeta
  | dirnode
  | filenode (mtime : ℚ) (size : ℕ) (uri : String)
deriving DecidableEq

/-- One entry of the local metadata scan (`get_local_metadata`): `{}` for a
directory, `{'mtime': …, 'size': …}` for a file. -/
inductive LMeta
  | dirM
  | fileM (mtime : ℚ) (size : ℕ)
deriving DecidableEq

/-- The remote snapshot store, as visible through the RemoteStore
interface: the metadata of the live (`Latest`) tree, the children of the
`Archives` namespace (`none` when the namespace does not exist), and the
metadata tree recorded for each archived snapshot.  Content addressing is
modelled by letting a filenode's `uri` be its content string. -/
structure Remote where
  latest : List (String × RMeta)
  archives : Option (List String)
  archiveTrees : List (String × List (String × RMeta))
deriving DecidableEq

/-- The mutable attributes of a `Watcher` object (plus the shared
`tahoe.parent.sync_state` counter it increments and decrements).
`local_snapshot` / `latest_snapshot` are `none` while the attribute has
never been assigned (reading it then raises `AttributeError`). -/
structure Watcher where
  local_dir : String
  remote_dircap : String
  do_backup : Bool
  sync_state : ℤ
  local_snapshot : Option String
  latest_snapshot : Option String
deriving DecidableEq

/-- `self.versions_dir = os.path.join(self.local_dir, '.gridsync-versions')`. -/
def Watcher.versions_dir (w : Watcher) : String :=
  pyJoin w.local_dir ".gridsync-versions"

/-- Observable side effects of the engine, recorded as a trace. -/
inductive Eff
  | mkdir (path : String)
  | copy2 (src dst : String)
  | conflictedCopy (src dst : String)
  | download (uri : String) (dest : String) (mtime : ℚ)
  | backup (newId : String)
deriving DecidableEq

/-- Python exceptions that the modelled code can raise. -/
inductive PyErr
  | indexError
  | keyError
  | attributeError
  | nameError (name : String)
  | lsError
  | fileExistsError
  | ioError
deriving DecidableEq

instance {ε α : Type} [DecidableEq ε] [DecidableEq α] :
    DecidableEq (Except ε α) := fun a b =>
  match a, b with
  | .error e, .error f =>
    if h : e = f then .isTrue (by rw [h])
    else .isFalse (fun c => by cases c; exact h rfl)
  | .ok x, .ok y =>
    if h : x = y then .isTrue (by rw [h])
    else .isFalse (fun c => by cases c; exact h rfl)
  | .error _, .ok _ => .isFalse (fun c => by cases c)
  | .ok _, .error _ => .isFalse (fun c => by cases c)

/-- Result of running an effectful operation: either it completed, or a
Python exception escaped; in both cases the state reached (including the
side effects already performed) is carried along. -/
inductive PyResult (α : Type)
  | ok (a : α)
  | exn (e : PyErr) (a : α)
deriving DecidableEq

/-- The state carried at a raise is just as real as at a return. -/
def PyResult.val {α : Type} : PyResult α → α
  | .ok a => a
  | .exn _ a => a

/-- Whole-engine state threaded through the operations: the watcher
object, the local filesystem, the remote store, and the accumulated
effect trace. -/
structure St where
  w : Watcher
  fs : Fs
  remote : Remote
  effs : List Eff
deriving DecidableEq

/-! ### Filesystem primitives -/

/-- Look a path up in the filesystem. -/
def lookupFs (fs : Fs) (p : String) : Option Node :=
  (fs.find? (fun q => q.1 = p)).map (fun q => q.2)

/-- Write a node: replace an existing binding, else append. -/
def fsSet (fs : Fs) (p : String) (n : Node) : Fs :=
  if (fs.find? (fun q => q.1 = p)).isSome then
    fs.map (fun q => if q.1 = p then (p, n) else q)
  else fs ++ [(p, n)]

/-- `os.path.isdir`. -/
def isDirFs (fs : Fs) (p : String) : Bool :=
  match lookupFs fs p with
  | some .dir => true
  | _ => false

/-- Worker for `makedirs`, walking the ancestor list shortest-first.
`os.makedirs` (with `exist_ok=False`) creates each missing intermediate
directory and raises `FileExistsError` when the final component already
exists; an intermediate path bound to a regular file also makes the
underlying `mkdir` fail. -/
def makedirsGo : St → List String → PyResult St
  | st, [] => .ok st
  | st, q :: rest =>
    match lookupFs st.fs q with
    | some .dir =>
      if rest.isEmpty then .exn .fileExistsError st else makedirsGo st rest
    | some (.file _ _ _) => .exn .fileExistsError st
    | none =>
      makedirsGo
        { st with fs := fsSet st.fs q .dir, effs := st.effs ++ [.mkdir q] } rest

/-- `os.makedirs(p)`. -/
def makedirs (st : St) (p : String) : PyResult St :=
  makedirsGo st (ancestors p)

/-- `shutil.copy2(src, dst)`: copy file content together with metadata
(in particular the mtime); raises when the source is missing or is a
directory. -/
def copy2 (st : St) (src dst : String) : PyResult St :=
  match lookupFs st.fs src with
  | some (.file m s c) =>
    .ok { st with fs := fsSet st.fs dst (.file m s c),
                  effs := st.effs ++ [.copy2 src dst] }
  | _ => .exn .ioError st

/-! ### RemoteStore interface (external to the repository) -/

/-- Modelled from the spec: RemoteStore.`upload_tree(local_root,
remote_path)` uploads the full local tree as a new immutable snapshot.
The uploaded metadata records each entry's path relative to `local_dir`,
its mtime and size, and a content-derived uri (content addressing is
modelled by using the content itself as the uri). -/
def upload_tree (local_dir : String) (fs : Fs) : List (String × RMeta) :=
  (fs.filter (fun q => strStartsWith q.1 (local_dir ++ "/"))).map
    (fun q =>
      (q.1.drop (local_dir.length + 1),
        match q.2 with
        | .dir => RMeta.dirnode
        | .file m s c => RMeta.filenode m s c))

/-- Modelled from the spec: `tahoe.backup(local_dir, remote_dircap)`
uploads the local tree as a new snapshot `newId` under the `Archives`
namespace (creating the namespace if absent) and points the live
(`Latest`) tree at the uploaded contents. -/
def tahoe_backup (local_dir newId : String) (r : Remote) (fs : Fs) : Remote :=
  { latest := upload_tree local_dir fs,
    archives := some ((r.archives.getD []) ++ [newId]),
    archiveTrees := r.archiveTrees ++ [(newId, upload_tree local_dir fs)] }

/-- Modelled from the spec: `tahoe.get(uri, dest, mtime)` downloads the
content addressed by `uri`, writes it to `dest` and sets the given mtime. -/
def tahoe_get (st : St) (uri dest : String) (mtime : ℚ) : St :=
  { st with fs := fsSet st.fs dest (.file mtime uri.length uri),
            effs := st.effs ++ [.download uri dest mtime] }

/-- Modelled from the spec: `tahoe.get_metadata(remote_path, metadata={})`
returns the recursive metadata listing of `remote_path`, which `sync`
builds as `remote_dircap + "/" + ("Latest" | "Archives/" + id)`; a path
naming no known snapshot yields an empty listing. -/
def get_metadata (r : Remote) (dircap remote_path : String) :
    List (String × RMeta) :=
  if remote_path = dircap ++ "/Latest" then r.latest
  else
    match r.archiveTrees.find?
        (fun q => dircap ++ "/Archives/" ++ q.1 = remote_path) with
    | some q => q.2
    | none => []

/-! ### Watcher operations (`gridsync/watcher.py`) -/

/-- `Watcher.get_latest_snapshot` (watcher.py:72-80): list the children of
`remote_dircap + "/Archives"` (`ls_json` raises when the namespace does
not exist, modelled by `archives = none`), sort them, and return
`snapshots[-1:][0]` — the last element of the sorted list, which raises
`IndexError` on an empty list.  Python sorts strings lexicographically by
code point; since that order is total and antisymmetric, the sorted
permutation is unique and is modelled by `List.insertionSort`. -/
def get_latest_snapshot (r : Remote) : Except PyErr String :=
  match r.archives with
  | none => .error .lsError
  | some children =>
    let sorted := children.insertionSort (fun a b => strLe a b = true)
    match sorted.getLast? with
    | none => .error .indexError
    | some s => .ok s

/-- `Watcher.get_local_metadata` (watcher.py:82-94): walk the tree under
`basedir`, recording `{}` for each directory and `{'mtime', 'size'}` for
each file.  `os.walk` visits exactly the nodes strictly below `basedir`. -/
def get_local_metadata (basedir : String) (fs : Fs) : List (String × LMeta) :=
  (fs.filter (fun q => strStartsWith q.1 (basedir ++ "/"))).map
    (fun q =>
      (q.1,
        match q.2 with
        | .dir => LMeta.dirM
        | .file m s _ => LMeta.fileM m s))

/-- Look a path up in a metadata listing (Python `key in dict` /
`dict[key]`). -/
def lookupMeta {β : Type} (md : List (String × β)) (k : String) : Option β :=
  (md.find? (fun q => q.1 = k)).map (fun q => q.2)

/-- `Watcher._create_conflicted_copy` (watcher.py:96-101): copy `filename`
beside itself under a `.(conflicted copy <tag>)` name. -/
def create_conflicted_copy (st : St) (filename : String) (mtime : ℤ) :
    PyResult St :=
  let be := splitext filename
  let tag := ".(conflicted copy " ++ fmtTimestamp mtime ++ ")"
  let newname := be.1 ++ tag ++ be.2
  match lookupFs st.fs filename with
  | some (.file m s c) =>
    .ok { st with fs := fsSet st.fs newname (.file m s c),
                  effs := st.effs ++ [.conflictedCopy filename newname] }
  | _ => .exn .ioError st

/-- The destination name `_create_versioned_copy` computes for `filename`
tagged with `mtime`: splice `.(tag)` before the extension, then join the
result onto `versions_dir`.  Note `os.path.join` discards `versions_dir`
whenever `newname` is absolute. -/
def versioned_filepath (w : Watcher) (filename : String) (mtime : ℤ) : String :=
  let be := splitext filename
  let tag := ".(" ++ fmtTimestamp mtime ++ ")"
  pyJoin w.versions_dir (be.1 ++ tag ++ be.2)

/-- `Watcher._create_versioned_copy` (watcher.py:103-113): compute the
tagged destination name, create its parent directory if it is not already
a directory, and `copy2` the file there. -/
def create_versioned_copy (st : St) (filename : String) (mtime : ℤ) :
    PyResult St :=
  let local_filepath := pyJoin st.w.local_dir filename
  let vfp := versioned_filepath st.w filename mtime
  let parent := dirname vfp
  let step1 : PyResult St :=
    if isDirFs st.fs parent then .ok st else makedirs st parent
  match step1 with
  | .exn e st1 => .exn e st1
  | .ok st1 => copy2 st1 local_filepath vfp

/-- One iteration of the filenode comparison loop of `Watcher.sync`
(watcher.py:140-155), returning the updated state and `do_backup` flag.
For a remote filenode: if the joined local path appears in the local
metadata, compare `int`-truncated mtimes — remote newer means archive a
versioned copy tagged with the local mtime and then download; local newer
means flag a backup; equal means no action (a local *directory* entry has
`{}` metadata, so reading its `'mtime'` raises `KeyError`).  A path with
no local entry is downloaded with the raw remote mtime. -/
def sync_file_step (st : St) (lmd : List (String × LMeta)) (f : String)
    (m : RMeta) (do_backup : Bool) : PyResult (St × Bool) :=
  match m with
  | .dirnode => .ok (st, do_backup)
  | .filenode rmtime _ uri =>
    let file := pyJoin st.w.local_dir f
    match lookupMeta lmd file with
    | some .dirM => .exn .keyError (st, do_backup)
    | some (.fileM lmtime _) =>
      let local_mtime := pyInt lmtime
      let remote_mtime := pyInt rmtime
      if local_mtime < remote_mtime then
        match create_versioned_copy st file local_mtime with
        | .exn e st1 => .exn e (st1, do_backup)
        | .ok st1 =>
          .ok (tahoe_get st1 uri file (remote_mtime : ℚ), do_backup)
      else if remote_mtime < local_mtime then .ok (st, true)
      else .ok (st, do_backup)
    | none => .ok (tahoe_get st uri file rmtime, do_backup)

/-- The dirnode loop of `Watcher.sync` (watcher.py:134-139): create every
remote directory missing locally. -/
def syncDirs (st : St) : List (String × RMeta) → PyResult St
  | [] => .ok st
  | (f, m) :: rest =>
    match m with
    | .dirnode =>
      let dirpath := pyJoin st.w.local_dir f
      if isDirFs st.fs dirpath then syncDirs st rest
      else
        match makedirs st dirpath with
        | .exn e st1 => .exn e st1
        | .ok st1 => syncDirs st1 rest
    | .filenode _ _ _ => syncDirs st rest

/-- The filenode loop of `Watcher.sync` (watcher.py:140-155), folded over
the remote metadata with `sync_file_step`. -/
def syncFiles (st : St) (lmd : List (String × LMeta)) (do_backup : Bool) :
    List (String × RMeta) → PyResult (St × Bool)
  | [] => .ok (st, do_backup)
  | (f, m) :: rest =>
    match sync_file_step st lmd f m do_backup with
    | .exn e p => .exn e p
    | .ok (st1, db1) => syncFiles st1 lmd db1 rest

/-- One iteration of the local-only loop of `Watcher.sync`
(watcher.py:156-163): `fn = file.split(local_dir + os.path.sep)[1]`
(raising `IndexError` when the separator does not occur), and the backup
flag is set when `fn` is not a remote key and `versions_dir` is not a
substring of the local path. -/
def sync_local_step (w : Watcher) (rmd : List (String × RMeta)) (db : Bool)
    (file : String) : Except PyErr Bool :=
  match (pySplit file (w.local_dir ++ "/")).get? 1 with
  | none => .error .indexError
  | some fn =>
    if (lookupMeta rmd fn).isNone ∧ ¬ strContains file w.versions_dir then
      .ok true
    else .ok db

/-- The local-only loop of `Watcher.sync` (watcher.py:156-163). -/
def syncLocal (w : Watcher) (rmd : List (String × RMeta)) (db : Bool) :
    List (String × LMeta) → Except PyErr Bool
  | [] => .ok db
  | (file, _) :: rest =>
    match sync_local_step w rmd db file with
    | .error e => .error e
    | .ok db1 => syncLocal w rmd db1 rest

/-- `Watcher.sync` (watcher.py:115-168).  `newId` is the snapshot
identifier the remote store will assign if this invocation performs a
backup upload.  The method first rewrites a non-`"Latest"` target to
`"Archives/" + target` and increments the shared in-flight counter (the
following `j = self.tahoe.ls_json(self.remote_dircap)` binds a value that
is never used and is modelled as not failing).  The `skip_comparison`
path backs up, records `get_latest_snapshot()` in `self.latest_snapshot`,
decrements the counter and returns.  The comparison path runs the three
loops, backs up if the flag was set, records `get_latest_snapshot()` in
`self.local_snapshot`, and decrements the counter.  No handler protects
any of this: an exception escapes with the counter still incremented. -/
def sync (st : St) (newId snapshot : String) (skip_comparison : Bool) :
    PyResult St :=
  let snapshot := if snapshot ≠ "Latest" then "Archives/" ++ snapshot
                  else snapshot
  let st := { st with w := { st.w with sync_state := st.w.sync_state + 1 } }
  if skip_comparison then
    let st := { st with
                remote := tahoe_backup st.w.local_dir newId st.remote st.fs,
                effs := st.effs ++ [.backup newId] }
    match get_latest_snapshot st.remote with
    | .error e => .exn e st
    | .ok s =>
      .ok { st with w := { st.w with latest_snapshot := some s,
                                     sync_state := st.w.sync_state - 1 } }
  else
    let remote_path := st.w.remote_dircap ++ "/" ++ snapshot
    let local_metadata := get_local_metadata st.w.local_dir st.fs
    let remote_metadata := get_metadata st.remote st.w.remote_dircap remote_path
    match syncDirs st remote_metadata with
    | .exn e st1 => .exn e st1
    | .ok st1 =>
      match syncFiles st1 local_metadata false remote_metadata with
      | .exn e p => .exn e p.1
      | .ok (st2, db) =>
        match syncLocal st2.w remote_metadata db local_metadata with
        | .error e => .exn e st2
        | .ok do_backup =>
          let st3 :=
            if do_backup then
              { st2 with
                remote := tahoe_backup st2.w.local_dir newId st2.remote st2.fs,
                effs := st2.effs ++ [.backup newId] }
            else st2
          match get_latest_snapshot st3.remote with
          | .error e => .exn e st3
          | .ok s =>
            .ok { st3 with w := { st3.w with local_snapshot := some s,
                                             sync_state := st3.w.sync_state - 1 } }

/-- The target a `sync` invocation is asked to run against, together with
its `skip_comparison` flag. -/
structure SyncCall where
  snapshot : String
  skip_comparison : Bool
deriving DecidableEq

/-- The dispatch decision of `Watcher.perform_backup` (watcher.py:50-55):
fetch the latest remote snapshot (errors propagate), read
`self.local_snapshot` (`AttributeError` when never assigned); if it equals
the fetched identifier call `sync(skip_comparison=True)`, else call
`sync(snapshot=remote_snapshot)`. -/
def perform_backup_call (w : Watcher) (r : Remote) : Except PyErr SyncCall :=
  match get_latest_snapshot r with
  | .error e => .error e
  | .ok remote_snapshot =>
    match w.local_snapshot with
    | none => .error .attributeError
    | some ls =>
      if ls = remote_snapshot then .ok ⟨"Latest", true⟩
      else .ok ⟨remote_snapshot, false⟩

/-- `Watcher.perform_backup` (watcher.py:50-55): the dispatch decision
followed by the chosen `sync` invocation. -/
def perform_backup (st : St) (newId : String) : PyResult St :=
  match perform_backup_call st.w st.remote with
  | .error e => .exn e st
  | .ok c => sync st newId c.snapshot c.skip_comparison

/-- `Watcher.wait_for_writes` (watcher.py:45-48): after sleeping one
quiescence interval, proceed to `perform_backup` only if the dirty flag
is still clear. -/
def wait_for_writes (st : St) (newId : String) : PyResult St :=
  if ¬ st.w.do_backup then perform_backup st newId else .ok st

/-- `Watcher.check_for_backup` (watcher.py:40-43): on a tick with the
dirty flag set and no sync in flight (`not sync_state` is integer
truthiness), clear the flag and run `wait_for_writes` on a worker thread
(modelled sequentially, so no further change event intervenes and the
flag stays clear). -/
def check_for_backup (st : St) (newId : String) : PyResult St :=
  if st.w.do_backup ∧ st.w.sync_state = 0 then
    wait_for_writes { st with w := { st.w with do_backup := false } } newId
  else .ok st

/-- `Watcher.on_modified` (watcher.py:36-38): a local change event sets
the dirty flag. -/
def on_modified (st : St) : St :=
  { st with w := { st.w with do_backup := true } }

/-- `Watcher.check_for_new_snapshot` (watcher.py:57-70): fetch the latest
remote snapshot, treating any failure as "no backups yet" and running
`sync(skip_comparison=True)`.  Otherwise compare it with
`self.local_snapshot` (`AttributeError` when never assigned; this read is
outside the `try`).  When they differ and no sync is in flight the source
schedules `reactor.callInThread(self.sync, snapshot=latest_snapshot)`,
but no binding named `latest_snapshot` is in scope in this method (the
fetched identifier is bound to `remote_snapshot`), so evaluating the
argument raises `NameError` before anything is scheduled. -/
def check_for_new_snapshot (st : St) (newId : String) : PyResult St :=
  match get_latest_snapshot st.remote with
  | .error _ => sync st newId "Latest" true
  | .ok remote_snapshot =>
    match st.w.local_snapshot with
    | none => .exn .attributeError st
    | some ls =>
      if remote_snapshot ≠ ls then
        if st.w.sync_state = 0 then .exn (.nameError "latest_snapshot") st
        else .ok st
      else .ok st

/-- `Watcher.start` (watcher.py:25-34): an initial `self.sync()` with the
default arguments, then observer and timer registration (no filesystem
or remote effects). -/
def watcher_start (st : St) (newId : String) : PyResult St :=
  sync st newId "Latest" false

/-- `Watcher.stop` (watcher.py:170-178): stops the timers and the
observer; no filesystem or remote effects. -/
def watcher_stop (st : St) : PyResult St :=
  .ok st

end Gridsync

/-! Sanity checks of the Python-semantics helpers on concrete inputs. -/
example : Gridsync.pySplit "hello" "l" = ["he", "", "o"] := by decide
example : Gridsync.pySplit "/L/a.txt" "/L/" = ["", "a.txt"] := by decide
example : Gridsync.strContains "/L/a.txt" "/L/.gridsync-versions" = false := by decide
example : Gridsync.pyJoin "/L" "a.txt" = "/L/a.txt" := by decide
example : Gridsync.pyJoin "/L/.gridsync-versions" "/L/a.txt" = "/L/a.txt" := by decide
example : Gridsync.splitext "/L/a.txt" = ("/L/a", ".txt") := by decide
example : Gridsync.splitext "/L/.bashrc" = ("/L/.bashrc", "") := by decide
example : Gridsync.dirname "/L/a.txt" = "/L" := by decide
example : Gridsync.ancestors "/L/a/b" = ["/L", "/L/a", "/L/a/b"] := by decide
example : Gridsync.fmtTimestamp 100 = "1970-01-01 00-01-40" := by decide
example : Gridsync.pyInt (mkRat 201 2) = 100 := by decide
example : Gridsync.pyInt 200 = 200 := by decide

namespace Gridsync

/-! ### Concrete scenario states used by the claim theorems -/

/-- The spec's worked scenario: local root `"/L"` holding `a.txt` with
mtime 100 and content `"old"`; the remote live tree holds `a.txt` with
mtime 200 and content `"new"`; one archived snapshot `"S1"` of that same
tree; `local_snapshot` already points at `"S1"`. -/
def scenarioSt : St :=
  ⟨⟨"/L", "cap", false, 0, some "S1", none⟩,
   [("/L", .dir), ("/L/a.txt", .file 100 3 "old")],
   ⟨[("a.txt", .filenode 200 3 "new")], some ["S1"],
    [("S1", [("a.txt", .filenode 200 3 "new")])]⟩,
   []⟩

/-- A fresh state whose remote archive namespace exists but holds no
snapshot children, with an empty local root `"/E"`. -/
def emptyArchSt : St :=
  ⟨⟨"/E", "cap", false, 0, none, none⟩,
   [("/E", .dir)],
   ⟨[], some [], []⟩,
   []⟩

/-- A first-use state: nothing synchronized yet (`local_snapshot` never
assigned), remote archive namespace absent. -/
def freshSt : St :=
  ⟨⟨"/F", "cap", false, 0, none, none⟩,
   [("/F", .dir)],
   ⟨[], none, []⟩,
   []⟩

/-- A poller state where the remote has advanced: `local_snapshot` is
`"A"` but the archive namespace holds `"A"` and `"B"`, and no sync is in
flight. -/
def pollSt : St :=
  ⟨⟨"/P", "cap", false, 0, some "A", none⟩,
   [("/P", .dir)],
   ⟨[], some ["A", "B"], []⟩,
   []⟩

end Gridsync

namespace Gridsync

/-! ### Ordering lemmas for snapshot identifiers -/

/-- `lexLe` is reflexive. -/
theorem lexLe_refl : ∀ x : List Char, lexLe x x = true
  | [] => rfl
  | a :: as => by simp [lexLe, lexLe_refl as]

/-- `lexLe` is total. -/
theorem lexLe_total : ∀ x y : List Char, lexLe x y = true ∨ lexLe y x = true
  | [], _ => Or.inl rfl
  | _ :: _, [] => Or.inr rfl
  | a :: as, b :: bs => by
    by_cases h : a = b
    · subst h
      simpa [lexLe] using lexLe_total as bs
    · rcases lt_or_gt_of_ne h with hlt | hgt
      · exact Or.inl (by simp [lexLe, h, hlt])
      · exact Or.inr (by simp [lexLe, Ne.symm h, hgt])

/-- `lexLe` is transitive. -/
theorem lexLe_trans : ∀ x y z : List Char,
    lexLe x y = true → lexLe y z = true → lexLe x z = true
  | [], _, _, _, _ => rfl
  | _ :: _, [], _, hxy, _ => by simp [lexLe] at hxy
  | _ :: _, _ :: _, [], _, hyz => by simp [lexLe] at hyz
  | a :: as, b :: bs, c :: cs, hxy, hyz => by
    by_cases hab : a = b <;> by_cases hbc : b = c
    · subst hab; subst hbc
      simp only [lexLe, if_pos rfl] at hxy hyz ⊢
      exact lexLe_trans as bs cs hxy hyz
    · subst hab
      simpa [lexLe, hbc] using hyz
    · subst hbc
      simpa [lexLe, hab] using hxy
    · simp only [lexLe, if_neg hab, decide_eq_true_eq] at hxy
      simp only [lexLe, if_neg hbc, decide_eq_true_eq] at hyz
      have hac : a < c := lt_trans hxy hyz
      simp [lexLe, ne_of_lt hac, hac]

/-- `lexLe x y` holds exactly when `x = y` or `x` precedes `y` in the
lexicographic order on the characters' code points. -/
theorem lexLe_iff : ∀ x y : List Char,
    lexLe x y = true ↔ x = y ∨ List.Lex (· < ·) x y
  | [], [] => by simp [lexLe]
  | [], _ :: _ => by simp [lexLe, List.Lex.nil]
  | _ :: _, [] => by
    constructor
    · intro h; simp [lexLe] at h
    · rintro (h | h)
      · exact absurd h (by simp)
      · cases h
  | a :: as, b :: bs => by
    by_cases h : a = b
    · subst h
      rw [show lexLe (a :: as) (a :: bs) = lexLe as bs by simp [lexLe],
        lexLe_iff as bs]
      constructor
      · rintro (rfl | h)
        · exact Or.inl rfl
        · exact Or.inr (List.Lex.cons h)
      · rintro (h | h)
        · exact Or.inl (by injection h)
        · cases h with
          | cons h => exact Or.inr h
          | rel h => exact absurd h (lt_irrefl a)
    · rw [show lexLe (a :: as) (b :: bs) = decide (a < b) by simp [lexLe, h]]
      constructor
      · intro hd
        exact Or.inr (List.Lex.rel (by simpa using hd))
      · rintro (he | hl)
        · exact absurd (by injection he) h
        · cases hl with
          | cons _ => exact absurd rfl h
          | rel hr => simpa using hr

/-- In a list sorted by a reflexive relation, the last element is above
every element. -/
theorem sorted_getLast?_max {α : Type} {r : α → α → Prop} (hrefl : ∀ a, r a a) :
    ∀ {l : List α} {m : α}, l.Sorted r → l.getLast? = some m → ∀ x ∈ l, r x m
  | [], _, _, hm => by simp at hm
  | [a], m, _, hm => by
    intro x hx
    simp only [List.getLast?_singleton, Option.some.injEq] at hm
    simp only [List.mem_singleton] at hx
    subst hm; subst hx
    exact hrefl x
  | a :: b :: t, m, hs, hm => by
    intro x hx
    rw [List.getLast?_cons_cons] at hm
    rcases List.mem_cons.mp hx with rfl | hx'
    · have hmem : m ∈ b :: t := by
        rcases List.mem_getLast?_eq_getLast (Option.mem_def.mpr hm) with ⟨h', rfl⟩
        exact List.getLast_mem h'
      exact (List.sorted_cons.mp hs).1 m hmem
    · exact sorted_getLast?_max hrefl (List.sorted_cons.mp hs).2 hm x hx'

end Gridsync

namespace Gridsync

/-- C8: `get_latest_snapshot` returns the lexicographically greatest
snapshot identifier among the children of the archive namespace: the
returned identifier is one of the children, and every child is either
equal to it or strictly below it in the lexicographic (code-point) order
on strings — string comparison, never numeric parsing. -/
theorem claim_C8_latest_is_lex_max (r : Remote) (l : List String)
    (h1 : r.archives = some l) (h2 : l ≠ []) :
    ∃ m, get_latest_snapshot r = .ok m ∧ m ∈ l ∧
      ∀ x ∈ l, x = m ∨ List.Lex (· < ·) x.data m.data := by
  have instTot : IsTotal String (fun a b => strLe a b = true) :=
    ⟨fun a b => lexLe_total a.data b.data⟩
  have instTrans : IsTrans String (fun a b => strLe a b = true) :=
    ⟨fun a b c => lexLe_trans a.data b.data c.data⟩
  set s := l.insertionSort (fun a b => strLe a b = true) with hs
  have hperm : s.Perm l := List.perm_insertionSort _ l
  have hne : s ≠ [] := by
    intro h
    rw [h] at hperm
    exact h2 hperm.symm.eq_nil
  have hsorted : s.Sorted (fun a b => strLe a b = true) :=
    List.sorted_insertionSort _ l
  have hlast : s.getLast? = some (s.getLast hne) :=
    List.getLast?_eq_getLast_of_ne_nil hne
  refine ⟨s.getLast hne, ?_, ?_, ?_⟩
  · unfold get_latest_snapshot
    rw [h1]
    simp only [← hs, hlast]
  · exact hperm.mem_iff.mp (List.getLast_mem hne)
  · intro x hx
    have hr : strLe x (s.getLast hne) = true :=
      sorted_getLast?_max (r := fun a b => strLe a b = true)
        (fun a => lexLe_refl a.data) hsorted hlast x (hperm.mem_iff.mpr hx)
    rcases (lexLe_iff x.data (s.getLast hne).data).mp hr with he | hl
    · exact Or.inl (String.toList_inj.mp he)
    · exact Or.inr hl

/-- Witness for C8 at a concrete archive listing; note the result `"9"`
is the *string*-greatest child even though `"10"` is numerically larger. -/
theorem claim_C8_witness :
    ∃ m, get_latest_snapshot ⟨[], some ["10", "9", "2"], []⟩ = .ok m ∧
      m ∈ ["10", "9", "2"] ∧
      ∀ x ∈ ["10", "9", "2"], x = m ∨ List.Lex (· < ·) x.data m.data :=
  claim_C8_latest_is_lex_max ⟨[], some ["10", "9", "2"], []⟩ ["10", "9", "2"]
    rfl (by decide)

end Gridsync

namespace Gridsync

/-- C9: when the archive namespace exists but has no snapshot children,
`get_latest_snapshot` hits `snapshots[-1:][0]` on an empty sorted list and
raises `IndexError`; `perform_backup` propagates it (its first statement
calls `get_latest_snapshot` outside any handler), and so does the
pointer-recording step of a comparison `sync` — shown concretely on
`emptyArchSt`, whose run escapes with `IndexError` (leaving the in-flight
counter incremented, there being no handler in `sync` either). -/
theorem claim_C9_empty_archives_index_error (w : Watcher) (r : Remote)
    (h : r.archives = some []) :
    get_latest_snapshot r = .error .indexError ∧
    perform_backup_call w r = .error .indexError ∧
    sync emptyArchSt "N" "Latest" false =
      .exn .indexError
        ⟨⟨"/E", "cap", false, 1, none, none⟩, [("/E", .dir)],
         ⟨[], some [], []⟩, []⟩ := by
  have h1 : get_latest_snapshot r = .error .indexError := by
    unfold get_latest_snapshot
    rw [h]
    rfl
  refine ⟨h1, ?_, by decide⟩
  unfold perform_backup_call
  rw [h1]

/-- Witness for C9 at the concrete empty-archive remote. -/
theorem claim_C9_witness :
    get_latest_snapshot ⟨[], some [], []⟩ = .error .indexError ∧
    perform_backup_call ⟨"/E", "cap", false, 0, none, none⟩ ⟨[], some [], []⟩ =
      .error .indexError ∧
    sync emptyArchSt "N" "Latest" false =
      .exn .indexError
        ⟨⟨"/E", "cap", false, 1, none, none⟩, [("/E", .dir)],
         ⟨[], some [], []⟩, []⟩ :=
  claim_C9_empty_archives_index_error
    ⟨"/E", "cap", false, 0, none, none⟩ ⟨[], some [], []⟩ rfl

end Gridsync

namespace Gridsync

/-- C4 counterexample: at `pollSt` the dirty flag is set, no sync is in
flight, and the debounce path (`check_for_backup` → `wait_for_writes` →
`perform_backup`) dispatches `sync` with the fetched snapshot `"B"` and
`skip_comparison = false` — not the full-backup trigger the claim states:
the run completes with no `backup` effect and records `"B"`. -/
theorem claim_C4_counterexample :
    perform_backup_call pollSt.w pollSt.remote = .ok ⟨"B", false⟩ ∧
    check_for_backup (on_modified pollSt) "N" =
      .ok ⟨⟨"/P", "cap", false, 0, some "B", none⟩, [("/P", .dir)],
           ⟨[], some ["A", "B"], []⟩, []⟩ := by
  constructor
  · decide
  · decide

/-- C4 (amended): a sync entered via the debounce path is dispatched with
`skip_comparison = true` exactly when the recorded local snapshot equals
the fetched latest remote snapshot; otherwise `perform_backup` dispatches
a comparison sync against that fetched snapshot identifier. -/
theorem claim_C4_debounce_dispatch (w : Watcher) (r : Remote) (s ls : String)
    (h1 : get_latest_snapshot r = .ok s) (h2 : w.local_snapshot = some ls) :
    perform_backup_call w r =
      .ok (if ls = s then ⟨"Latest", true⟩ else ⟨s, false⟩) := by
  unfold perform_backup_call
  rw [h1, h2]
  by_cases hq : ls = s <;> simp [hq]

/-- Witness for the amended C4 at the concrete poller state. -/
theorem claim_C4_witness :
    perform_backup_call pollSt.w pollSt.remote =
      .ok (if ("A" : String) = "B" then ⟨"Latest", true⟩ else ⟨"B", false⟩) :=
  claim_C4_debounce_dispatch pollSt.w pollSt.remote "B" "A" (by decide) rfl

/-- C5: whenever the fetched latest snapshot differs from the recorded
local snapshot and no sync is in flight, `check_for_new_snapshot` does
*not* trigger a sync: the scheduling call names the unbound variable
`latest_snapshot` (the fetched identifier is bound to `remote_snapshot`),
so a `NameError` escapes and the state is unchanged. -/
theorem claim_C5_poller_name_error (st : St) (newId s ls : String)
    (h1 : get_latest_snapshot st.remote = .ok s)
    (h2 : st.w.local_snapshot = some ls)
    (h3 : s ≠ ls)
    (h4 : st.w.sync_state = 0) :
    check_for_new_snapshot st newId = .exn (.nameError "latest_snapshot") st := by
  unfold check_for_new_snapshot
  rw [h1, h2]
  simp [h3, h4]

/-- Witness for C5 at the concrete poller state. -/
theorem claim_C5_witness :
    check_for_new_snapshot pollSt "N" =
      .exn (.nameError "latest_snapshot") pollSt :=
  claim_C5_poller_name_error pollSt "N" "B" "A" (by decide) rfl (by decide) rfl

end Gridsync

namespace Gridsync

/-- On a nonempty archive listing, `get_latest_snapshot` succeeds. -/
theorem get_latest_snapshot_ok (r : Remote) (l : List String)
    (h1 : r.archives = some l) (h2 : l ≠ []) :
    ∃ m, get_latest_snapshot r = .ok m := by
  have hperm := List.perm_insertionSort (fun a b => strLe a b = true) l
  have hne : l.insertionSort (fun a b => strLe a b = true) ≠ [] := by
    intro h
    rw [h] at hperm
    exact h2 hperm.symm.eq_nil
  refine ⟨(l.insertionSort (fun a b => strLe a b = true)).getLast hne, ?_⟩
  unfold get_latest_snapshot
  rw [h1]
  simp only [List.getLast?_eq_getLast_of_ne_nil hne]

/-- C6 (behavior of the code, contradicting the claim): a
`skip_comparison = true` sync always succeeds, uploads the tree as the
new snapshot `newId`, leaves the in-flight counter balanced — but records
the resulting identifier in `self.latest_snapshot`, while
`self.local_snapshot`, the pointer the debounce and poller triggers
consult, is left untouched; concretely, after a first-use
`sync(skip_comparison=True)` from `freshSt` the very next
`perform_backup` dispatch fails with `AttributeError` because
`local_snapshot` was never assigned. -/
theorem claim_C6_skip_records_wrong_pointer (st : St) (newId : String) :
    (∃ st' s,
      sync st newId "Latest" true = .ok st' ∧
      st'.w.local_snapshot = st.w.local_snapshot ∧
      st'.w.latest_snapshot = some s ∧
      st'.w.sync_state = st.w.sync_state ∧
      st'.effs = st.effs ++ [.backup newId] ∧
      st'.remote.archives = some ((st.remote.archives.getD []) ++ [newId])) ∧
    perform_backup_call (sync freshSt "S1" "Latest" true).val.w
      (sync freshSt "S1" "Latest" true).val.remote = .error .attributeError := by
  have harch : (tahoe_backup st.w.local_dir newId st.remote st.fs).archives
      = some ((st.remote.archives.getD []) ++ [newId]) := rfl
  obtain ⟨m, hm⟩ :=
    get_latest_snapshot_ok (tahoe_backup st.w.local_dir newId st.remote st.fs)
      ((st.remote.archives.getD []) ++ [newId]) harch (by simp)
  constructor
  · have heq : sync st newId "Latest" true =
        .ok { st with
              w := { st.w with latest_snapshot := some m,
                               sync_state := st.w.sync_state + 1 - 1 },
              remote := tahoe_backup st.w.local_dir newId st.remote st.fs,
              effs := st.effs ++ [.backup newId] } := by
      unfold sync
      simp only [ne_eq, not_true_eq_false, if_false, ite_false, if_true,
        ite_true, hm]
    refine ⟨_, m, heq, rfl, rfl, ?_, rfl, harch⟩
    show st.w.sync_state + 1 - 1 = st.w.sync_state
    omega
  · decide

end Gridsync

namespace Gridsync

/-! ### The loops of `sync` never touch the watcher object -/

theorem makedirsGo_w : ∀ (l : List String) (st : St),
    (makedirsGo st l).val.w = st.w := by
  intro l
  induction l with
  | nil => intro st; rfl
  | cons q rest ih =>
    intro st
    show (makedirsGo st (q :: rest)).val.w = st.w
    rw [makedirsGo]
    cases h : lookupFs st.fs q with
    | none => exact ih _
    | some n =>
      cases n with
      | dir =>
        cases hr : rest.isEmpty with
        | true => simp [hr, PyResult.val]
        | false => simp only [hr, Bool.false_eq_true, if_false, ite_false]; exact ih st
      | file m s c => rfl

theorem makedirs_w (st : St) (p : String) : (makedirs st p).val.w = st.w :=
  makedirsGo_w (ancestors p) st

theorem copy2_w (st : St) (src dst : String) :
    (copy2 st src dst).val.w = st.w := by
  unfold copy2
  cases h : lookupFs st.fs src with
  | none => rfl
  | some n => cases n <;> rfl

theorem create_versioned_copy_w (st : St) (filename : String) (mtime : ℤ) :
    (create_versioned_copy st filename mtime).val.w = st.w := by
  unfold create_versioned_copy
  cases hd : isDirFs st.fs (dirname (versioned_filepath st.w filename mtime)) with
  | true =>
    simp only [hd, if_true, ite_true]
    exact copy2_w st (pyJoin st.w.local_dir filename)
      (versioned_filepath st.w filename mtime)
  | false =>
    simp only [hd, Bool.false_eq_true, if_false, ite_false]
    cases h : makedirs st (dirname (versioned_filepath st.w filename mtime)) with
    | ok st1 =>
      have h1 : st1.w = st.w := by
        have h2 := makedirs_w st (dirname (versioned_filepath st.w filename mtime))
        rw [h] at h2
        exact h2
      have h3 := copy2_w st1 (pyJoin st.w.local_dir filename)
        (versioned_filepath st.w filename mtime)
      rw [h1] at h3
      exact h3
    | exn e st1 =>
      have h2 := makedirs_w st (dirname (versioned_filepath st.w filename mtime))
      rw [h] at h2
      exact h2

theorem tahoe_get_w (st : St) (uri dest : String) (mtime : ℚ) :
    (tahoe_get st uri dest mtime).w = st.w := rfl

theorem sync_file_step_w (st : St) (lmd : List (String × LMeta)) (f : String)
    (m : RMeta) (db : Bool) :
    (sync_file_step st lmd f m db).val.1.w = st.w := by
  cases m with
  | dirnode => rfl
  | filenode rmtime sz uri =>
    have key : sync_file_step st lmd f (.filenode rmtime sz uri) db =
        (match lookupMeta lmd (pyJoin st.w.local_dir f) with
         | some .dirM => .exn .keyError (st, db)
         | some (.fileM lmtime _) =>
           if pyInt lmtime < pyInt rmtime then
             match create_versioned_copy st (pyJoin st.w.local_dir f)
                 (pyInt lmtime) with
             | .exn e st1 => .exn e (st1, db)
             | .ok st1 =>
               .ok (tahoe_get st1 uri (pyJoin st.w.local_dir f)
                 ((pyInt rmtime : ℤ) : ℚ), db)
           else if pyInt rmtime < pyInt lmtime then .ok (st, true)
           else .ok (st, db)
         | none => .ok (tahoe_get st uri (pyJoin st.w.local_dir f) rmtime, db)) :=
      rfl
    rw [key]
    cases hl : lookupMeta lmd (pyJoin st.w.local_dir f) with
    | none => rfl
    | some lm =>
      cases lm with
      | dirM => rfl
      | fileM lmtime lsz =>
        by_cases h1 : pyInt lmtime < pyInt rmtime
        · simp only [if_pos h1]
          cases hc : create_versioned_copy st (pyJoin st.w.local_dir f)
              (pyInt lmtime) with
          | ok st1 =>
            have h2 := create_versioned_copy_w st (pyJoin st.w.local_dir f)
              (pyInt lmtime)
            rw [hc] at h2
            exact h2
          | exn e st1 =>
            have h2 := create_versioned_copy_w st (pyJoin st.w.local_dir f)
              (pyInt lmtime)
            rw [hc] at h2
            exact h2
        · simp only [if_neg h1]
          by_cases h2 : pyInt rmtime < pyInt lmtime
          · simp only [if_pos h2]
            rfl
          · simp only [if_neg h2]
            rfl

theorem syncDirs_w : ∀ (rmd : List (String × RMeta)) (st : St),
    (syncDirs st rmd).val.w = st.w := by
  intro rmd
  induction rmd with
  | nil => intro st; rfl
  | cons q rest ih =>
    intro st
    obtain ⟨f, m⟩ := q
    cases m with
    | dirnode =>
      show (syncDirs st ((f, RMeta.dirnode) :: rest)).val.w = st.w
      rw [syncDirs]
      cases hd : isDirFs st.fs (pyJoin st.w.local_dir f) with
      | true =>
        simp only [hd, if_true, ite_true]
        exact ih st
      | false =>
        simp only [hd, Bool.false_eq_true, if_false, ite_false]
        cases h : makedirs st (pyJoin st.w.local_dir f) with
        | ok st1 =>
          have h1 : st1.w = st.w := by
            have h2 := makedirs_w st (pyJoin st.w.local_dir f)
            rw [h] at h2
            exact h2
          have h3 := ih st1
          rw [h1] at h3
          exact h3
        | exn e st1 =>
          have h2 := makedirs_w st (pyJoin st.w.local_dir f)
          rw [h] at h2
          exact h2
    | filenode rmtime sz uri =>
      show (syncDirs st ((f, RMeta.filenode rmtime sz uri) :: rest)).val.w = st.w
      rw [syncDirs]
      exact ih st

theorem syncFiles_w : ∀ (rmd : List (String × RMeta)) (st : St)
    (lmd : List (String × LMeta)) (db : Bool),
    (syncFiles st lmd db rmd).val.1.w = st.w := by
  intro rmd
  induction rmd with
  | nil => intro st lmd db; rfl
  | cons q rest ih =>
    intro st lmd db
    obtain ⟨f, m⟩ := q
    show (syncFiles st lmd db ((f, m) :: rest)).val.1.w = st.w
    rw [syncFiles]
    cases h : sync_file_step st lmd f m db with
    | ok p =>
      have h1 : p.1.w = st.w := by
        have h2 := sync_file_step_w st lmd f m db
        rw [h] at h2
        exact h2
      have h3 := ih p.1 lmd p.2
      rw [h1] at h3
      exact h3
    | exn e p =>
      have h2 := sync_file_step_w st lmd f m db
      rw [h] at h2
      exact h2

theorem syncDirs_w_exn {rmd : List (String × RMeta)} {st : St} {e : PyErr}
    {st1 : St} (h : syncDirs st rmd = .exn e st1) : st1.w = st.w := by
  have h2 := syncDirs_w rmd st
  rw [h] at h2
  exact h2

theorem syncDirs_w_ok {rmd : List (String × RMeta)} {st : St} {st1 : St}
    (h : syncDirs st rmd = .ok st1) : st1.w = st.w := by
  have h2 := syncDirs_w rmd st
  rw [h] at h2
  exact h2

theorem syncFiles_w_exn {rmd : List (String × RMeta)} {st : St}
    {lmd : List (String × LMeta)} {db : Bool} {e : PyErr} {p : St × Bool}
    (h : syncFiles st lmd db rmd = .exn e p) : p.1.w = st.w := by
  have h2 := syncFiles_w rmd st lmd db
  rw [h] at h2
  exact h2

theorem syncFiles_w_ok {rmd : List (String × RMeta)} {st : St}
    {lmd : List (String × LMeta)} {db : Bool} {p : St × Bool}
    (h : syncFiles st lmd db rmd = .ok p) : p.1.w = st.w := by
  have h2 := syncFiles_w rmd st lmd db
  rw [h] at h2
  exact h2

/-- C7 (behavior of the code, contradicting the claim): `sync` has no
exception handler, so *every* invocation that fails — whichever step
raised — escapes with the shared in-flight counter still incremented
(one above its value before the invocation), never restored; subsequent
debounce ticks and poller checks see a nonzero `sync_state` and refuse to
start a sync, so the failed operation is not retried. -/
theorem claim_C7_failed_sync_leaves_counter_raised (st : St)
    (newId snapshot : String) (skip : Bool) (e : PyErr) (st' : St)
    (hsync : sync st newId snapshot skip = .exn e st') :
    st'.w.sync_state = st.w.sync_state + 1 := by
  cases skip with
  | true =>
    unfold sync at hsync
    split at hsync <;>
    · simp only [reduceIte] at hsync
      split at hsync
      · cases hsync
        rfl
      · cases hsync
  | false =>
    unfold sync at hsync
    split at hsync <;>
    · simp only [reduceIte] at hsync
      split at hsync
      · rename_i hcontra
        exact absurd hcontra (by simp)
      · split at hsync
        · rename_i e1 st1 heq1
          cases hsync
          exact congrArg Watcher.sync_state (syncDirs_w_exn heq1)
        · rename_i st1 heq1
          have h1 : st1.w.sync_state = st.w.sync_state + 1 :=
            congrArg Watcher.sync_state (syncDirs_w_ok heq1)
          split at hsync
          · rename_i e2 p heq2
            cases hsync
            rw [show p.1.w = st1.w from syncFiles_w_exn heq2]
            exact h1
          · rename_i st2 db heq2
            have h3 : st2.w.sync_state = st.w.sync_state + 1 := by
              rw [show st2.w = (st2, db).1.w from rfl,
                show (st2, db).1.w = st1.w from syncFiles_w_ok heq2]
              exact h1
            split at hsync
            · cases hsync
              exact h3
            · rename_i db2 heq3
              split at hsync
              · cases hsync
                split
                · exact h3
                · exact h3
              · cases hsync

/-- Witness for C7: from `emptyArchSt` (counter 0) the comparison sync
fails with `IndexError` and the counter is left at 1. -/
theorem claim_C7_witness :
    emptyArchSt.w.sync_state = 0 ∧
    sync emptyArchSt "X" "Latest" false =
      .exn .indexError
        ⟨⟨"/E", "cap", false, 1, none, none⟩, [("/E", .dir)],
         ⟨[], some [], []⟩, []⟩ ∧
    (⟨⟨"/E", "cap", false, 1, none, none⟩, [("/E", .dir)],
      ⟨[], some [], []⟩, ([] : List Eff)⟩ : St).w.sync_state =
      emptyArchSt.w.sync_state + 1 :=
  ⟨rfl, by decide,
    claim_C7_failed_sync_leaves_counter_raised emptyArchSt "X" "Latest" false
      .indexError _ (by decide)⟩

/-! ### Effect-trace shape of the archive-then-download branch -/

theorem makedirsGo_effs_ok : ∀ (l : List String) (st st1 : St),
    makedirsGo st l = .ok st1 → ∃ ms, st1.effs = st.effs ++ ms := by
  intro l
  induction l with
  | nil =>
    intro st st1 h
    cases h
    exact ⟨[], (List.append_nil _).symm⟩
  | cons q rest ih =>
    intro st st1 h
    rw [makedirsGo] at h
    cases hl : lookupFs st.fs q with
    | none =>
      rw [hl] at h
      obtain ⟨ms, hms⟩ := ih _ _ h
      refine ⟨Eff.mkdir q :: ms, ?_⟩
      rw [hms]
      simp
    | some n =>
      cases n with
      | dir =>
        rw [hl] at h
        cases hr : rest.isEmpty with
        | true => rw [hr] at h; cases h
        | false =>
          rw [hr] at h
          simp only [Bool.false_eq_true, if_false, ite_false] at h
          exact ih _ _ h
      | file m s c =>
        rw [hl] at h
        cases h

theorem copy2_ok_effs {st st1 : St} {src dst : String}
    (h : copy2 st src dst = .ok st1) :
    st1.effs = st.effs ++ [.copy2 src dst] := by
  unfold copy2 at h
  cases hl : lookupFs st.fs src with
  | none => rw [hl] at h; cases h
  | some n =>
    cases n with
    | dir => rw [hl] at h; cases h
    | file m s c =>
      rw [hl] at h
      cases h
      rfl

theorem create_versioned_copy_ok_effs {st st1 : St} {filename : String}
    {mtime : ℤ} (h : create_versioned_copy st filename mtime = .ok st1) :
    ∃ pre, st1.effs = st.effs ++ pre ++
      [.copy2 (pyJoin st.w.local_dir filename)
        (versioned_filepath st.w filename mtime)] := by
  have key : create_versioned_copy st filename mtime =
      (match (if isDirFs st.fs (dirname (versioned_filepath st.w filename mtime))
              then PyResult.ok st
              else makedirs st (dirname (versioned_filepath st.w filename mtime))) with
       | .exn e st2 => .exn e st2
       | .ok st2 => copy2 st2 (pyJoin st.w.local_dir filename)
           (versioned_filepath st.w filename mtime)) := rfl
  rw [key] at h
  cases hd : isDirFs st.fs (dirname (versioned_filepath st.w filename mtime)) with
  | true =>
    rw [hd] at h
    simp only [if_true, ite_true] at h
    refine ⟨[], ?_⟩
    simpa using copy2_ok_effs h
  | false =>
    rw [hd] at h
    simp only [Bool.false_eq_true, if_false, ite_false] at h
    cases hm : makedirs st (dirname (versioned_filepath st.w filename mtime)) with
    | exn e stm => rw [hm] at h; cases h
    | ok stm =>
      rw [hm] at h
      obtain ⟨ms, hms⟩ := makedirsGo_effs_ok _ _ _ hm
      have h2 : copy2 stm (pyJoin st.w.local_dir filename)
          (versioned_filepath st.w filename mtime) = .ok st1 := h
      refine ⟨ms, ?_⟩
      rw [copy2_ok_effs h2, hms]

/-- C1: the per-entry actions of the comparison loop of `sync`.  For a
remote filenode: when no local entry exists at the joined path, the file
is downloaded unconditionally with the (raw) remote mtime.  When a local
file entry exists, mtimes are compared truncated to integer seconds: if
the remote is newer the engine first archives the current local file via
`_create_versioned_copy` tagged with the *local* truncated mtime (the
copy effect lands in the trace before the download) and then downloads
the remote content with the truncated remote mtime; if the local is
newer, nothing is written and the backup-owed flag is set; if equal,
nothing happens at all. -/
theorem claim_C1_per_entry_actions (st : St) (lmd : List (String × LMeta))
    (f : String) (rmtime : ℚ) (sz : ℕ) (uri : String) (db : Bool) :
    (lookupMeta lmd (pyJoin st.w.local_dir f) = none →
      sync_file_step st lmd f (.filenode rmtime sz uri) db =
        .ok (tahoe_get st uri (pyJoin st.w.local_dir f) rmtime, db)) ∧
    (∀ lmtime lsz,
      lookupMeta lmd (pyJoin st.w.local_dir f) = some (.fileM lmtime lsz) →
      (pyInt lmtime < pyInt rmtime →
        ∀ st1, create_versioned_copy st (pyJoin st.w.local_dir f)
            (pyInt lmtime) = .ok st1 →
          sync_file_step st lmd f (.filenode rmtime sz uri) db =
            .ok (tahoe_get st1 uri (pyJoin st.w.local_dir f)
              (pyInt rmtime : ℚ), db) ∧
          (∃ pre, st1.effs = st.effs ++ pre ++
            [.copy2 (pyJoin st.w.local_dir (pyJoin st.w.local_dir f))
              (versioned_filepath st.w (pyJoin st.w.local_dir f)
                (pyInt lmtime))]) ∧
          (tahoe_get st1 uri (pyJoin st.w.local_dir f)
              (pyInt rmtime : ℚ)).effs =
            st1.effs ++
              [.download uri (pyJoin st.w.local_dir f) (pyInt rmtime : ℚ)]) ∧
      (pyInt rmtime < pyInt lmtime →
        sync_file_step st lmd f (.filenode rmtime sz uri) db = .ok (st, true)) ∧
      (pyInt rmtime = pyInt lmtime →
        sync_file_step st lmd f (.filenode rmtime sz uri) db = .ok (st, db))) := by
  have key : sync_file_step st lmd f (.filenode rmtime sz uri) db =
      (match lookupMeta lmd (pyJoin st.w.local_dir f) with
       | some .dirM => .exn .keyError (st, db)
       | some (.fileM lmtime _) =>
         if pyInt lmtime < pyInt rmtime then
           match create_versioned_copy st (pyJoin st.w.local_dir f)
               (pyInt lmtime) with
           | .exn e st1 => .exn e (st1, db)
           | .ok st1 =>
             .ok (tahoe_get st1 uri (pyJoin st.w.local_dir f)
               ((pyInt rmtime : ℤ) : ℚ), db)
         else if pyInt rmtime < pyInt lmtime then .ok (st, true)
         else .ok (st, db)
       | none => .ok (tahoe_get st uri (pyJoin st.w.local_dir f) rmtime, db)) :=
    rfl
  constructor
  · intro hnone
    rw [key, hnone]
  · intro lmtime lsz hsome
    refine ⟨?_, ?_, ?_⟩
    · intro hlt st1 hcvc
      refine ⟨?_, create_versioned_copy_ok_effs hcvc, rfl⟩
      rw [key, hsome]
      simp only [if_pos hlt, hcvc]
    · intro hgt
      rw [key, hsome]
      have hnlt : ¬ pyInt lmtime < pyInt rmtime := by omega
      simp only [if_neg hnlt, if_pos hgt]
    · intro heqm
      rw [key, hsome]
      have hnlt : ¬ pyInt lmtime < pyInt rmtime := by omega
      have hngt : ¬ pyInt rmtime < pyInt lmtime := by omega
      simp only [if_neg hnlt, if_neg hngt]

/-- The state `create_versioned_copy` produces from `scenarioSt` for
`a.txt` tagged with local mtime 100: the copy lands beside the original. -/
def scenarioVersioned : St :=
  ⟨⟨"/L", "cap", false, 0, some "S1", none⟩,
   [("/L", .dir), ("/L/a.txt", .file 100 3 "old"),
    ("/L/a.(1970-01-01 00-01-40).txt", .file 100 3 "old")],
   ⟨[("a.txt", .filenode 200 3 "new")], some ["S1"],
    [("S1", [("a.txt", .filenode 200 3 "new")])]⟩,
   [.copy2 "/L/a.txt" "/L/a.(1970-01-01 00-01-40).txt"]⟩

/-- Witness for C1: the four branches at concrete inputs — a missing
local entry downloads; a newer remote archives then downloads; a newer
local file only flags a backup; equal truncated mtimes do nothing. -/
theorem claim_C1_witness :
    (sync_file_step pollSt [] "b.txt" (.filenode 5 1 "c") false =
      .ok (tahoe_get pollSt "c" (pyJoin pollSt.w.local_dir "b.txt") 5,
        false)) ∧
    (sync_file_step scenarioSt [("/L/a.txt", .fileM 100 3)] "a.txt"
        (.filenode 200 3 "new") false =
      .ok (tahoe_get scenarioVersioned "new"
        (pyJoin scenarioSt.w.local_dir "a.txt") (pyInt 200 : ℚ), false)) ∧
    (sync_file_step scenarioSt [("/L/a.txt", .fileM 300 3)] "a.txt"
        (.filenode 200 3 "new") false = .ok (scenarioSt, true)) ∧
    (sync_file_step scenarioSt [("/L/a.txt", .fileM 200 3)] "a.txt"
        (.filenode 200 3 "new") false = .ok (scenarioSt, false)) := by
  refine ⟨?_, ?_, ?_, ?_⟩
  · exact (claim_C1_per_entry_actions pollSt [] "b.txt" 5 1 "c" false).1
      (by decide)
  · exact (((claim_C1_per_entry_actions scenarioSt
        [("/L/a.txt", .fileM 100 3)] "a.txt" 200 3 "new" false).2 100 3
        (by decide)).1 (by decide) scenarioVersioned (by decide)).1
  · exact ((claim_C1_per_entry_actions scenarioSt
        [("/L/a.txt", .fileM 300 3)] "a.txt" 200 3 "new" false).2 300 3
        (by decide)).2.1 (by decide)
  · exact ((claim_C1_per_entry_actions scenarioSt
        [("/L/a.txt", .fileM 200 3)] "a.txt" 200 3 "new" false).2 200 3
        (by decide)).2.2 (by decide)

/-- C2 (behavior of the code, contradicting the claim): on the spec's own
scenario, the first comparison sync archives `a.txt` (to a destination
*outside* the reserved versions subtree, see C3) and downloads the newer
remote copy; the immediately following comparison sync, with no
intervening local or remote change, finds the stray versioned copy as a
local-only file, flags a backup, performs a `tahoe.backup` upload and
creates the new snapshot `"S3"` — so the second run is not write-free. -/
theorem claim_C2_second_run_creates_snapshot :
    ∃ st1 st2,
      sync scenarioSt "S2" "Latest" false = .ok st1 ∧
      sync st1 "S3" "Latest" false = .ok st2 ∧
      st1.effs =
        [.copy2 "/L/a.txt" "/L/a.(1970-01-01 00-01-40).txt",
         .download "new" "/L/a.txt" 200] ∧
      st2.effs = st1.effs ++ [.backup "S3"] ∧
      st1.remote.archives = some ["S1"] ∧
      st2.remote.archives = some ["S1", "S3"] := by
  refine ⟨(sync scenarioSt "S2" "Latest" false).val,
    (sync (sync scenarioSt "S2" "Latest" false).val "S3" "Latest" false).val,
    ?_, ?_, ?_, ?_, ?_, ?_⟩ <;> decide

/-- C3 (behavior of the code, contradicting the claim): archiving
`"/L/a.txt"` at local mtime 100 from `scenarioSt` computes exactly the
tagged name the spec's example expects and the copy preserves the
original node (content `"old"`, mtime 100) — but because `sync` passes
the *absolute* local path, `os.path.join(versions_dir, newname)` discards
`versions_dir`, and the copy is written beside the original file, not
under the reserved `.gridsync-versions` subtree (the destination does not
even contain it as a substring, so later scans treat it as an ordinary
local file). -/
theorem claim_C3_versioned_copy_outside_subtree :
    create_versioned_copy scenarioSt "/L/a.txt" 100 = .ok scenarioVersioned ∧
    versioned_filepath scenarioSt.w "/L/a.txt" 100 =
      "/L/a.(1970-01-01 00-01-40).txt" ∧
    scenarioSt.w.versions_dir = "/L/.gridsync-versions" ∧
    strContains (versioned_filepath scenarioSt.w "/L/a.txt" 100)
      scenarioSt.w.versions_dir = false ∧
    lookupFs scenarioVersioned.fs "/L/a.(1970-01-01 00-01-40).txt" =
      some (.file 100 3 "old") := by
  refine ⟨?_, ?_, ?_, ?_, ?_⟩ <;> decide

/-! ### No operation ever produces a conflicted copy -/

/-- Whether an effect is the creation of a conflicted copy
(`_create_conflicted_copy`'s distinctive effect). -/
def Eff.isConflicted : Eff → Bool
  | .conflictedCopy _ _ => true
  | _ => false

/-- A trace free of conflicted-copy effects. -/
def noConflictB (effs : List Eff) : Bool :=
  effs.all (fun e => ! e.isConflicted)

theorem noConflictB_append (a b : List Eff) :
    noConflictB (a ++ b) = (noConflictB a && noConflictB b) :=
  List.all_append

theorem makedirsGo_nc : ∀ (l : List String) (st : St),
    noConflictB st.effs = true →
    noConflictB (makedirsGo st l).val.effs = true := by
  intro l
  induction l with
  | nil => intro st h; exact h
  | cons q rest ih =>
    intro st h
    show noConflictB (makedirsGo st (q :: rest)).val.effs = true
    rw [makedirsGo]
    cases hl : lookupFs st.fs q with
    | none =>
      refine ih _ ?_
      show noConflictB (st.effs ++ [.mkdir q]) = true
      rw [noConflictB_append, h]
      rfl
    | some n =>
      cases n with
      | dir =>
        cases hr : rest.isEmpty with
        | true => simpa [hr, PyResult.val] using h
        | false =>
          simp only [hr, Bool.false_eq_true, if_false, ite_false]
          exact ih st h
      | file m s c => exact h

theorem makedirs_nc (st : St) (p : String) (h : noConflictB st.effs = true) :
    noConflictB (makedirs st p).val.effs = true :=
  makedirsGo_nc (ancestors p) st h

theorem copy2_nc (st : St) (src dst : String)
    (h : noConflictB st.effs = true) :
    noConflictB (copy2 st src dst).val.effs = true := by
  unfold copy2
  cases hl : lookupFs st.fs src with
  | none => exact h
  | some n =>
    cases n with
    | dir => exact h
    | file m s c =>
      show noConflictB (st.effs ++ [.copy2 src dst]) = true
      rw [noConflictB_append, h]
      rfl

theorem tahoe_get_nc (st : St) (uri dest : String) (mtime : ℚ)
    (h : noConflictB st.effs = true) :
    noConflictB (tahoe_get st uri dest mtime).effs = true := by
  show noConflictB (st.effs ++ [.download uri dest mtime]) = true
  rw [noConflictB_append, h]
  rfl

theorem create_versioned_copy_nc (st : St) (filename : String) (mtime : ℤ)
    (h : noConflictB st.effs = true) :
    noConflictB (create_versioned_copy st filename mtime).val.effs = true := by
  unfold create_versioned_copy
  cases hd : isDirFs st.fs (dirname (versioned_filepath st.w filename mtime)) with
  | true =>
    simp only [hd, if_true, ite_true]
    exact copy2_nc st _ _ h
  | false =>
    simp only [hd, Bool.false_eq_true, if_false, ite_false]
    cases hm : makedirs st (dirname (versioned_filepath st.w filename mtime)) with
    | ok st1 =>
      have h1 : noConflictB st1.effs = true := by
        have h2 := makedirs_nc st
          (dirname (versioned_filepath st.w filename mtime)) h
        rw [hm] at h2
        exact h2
      exact copy2_nc st1 _ _ h1
    | exn e st1 =>
      have h2 := makedirs_nc st
        (dirname (versioned_filepath st.w filename mtime)) h
      rw [hm] at h2
      exact h2

theorem sync_file_step_nc (st : St) (lmd : List (String × LMeta)) (f : String)
    (m : RMeta) (db : Bool) (h : noConflictB st.effs = true) :
    noConflictB (sync_file_step st lmd f m db).val.1.effs = true := by
  cases m with
  | dirnode => exact h
  | filenode rmtime sz uri =>
    have key : sync_file_step st lmd f (.filenode rmtime sz uri) db =
        (match lookupMeta lmd (pyJoin st.w.local_dir f) with
         | some .dirM => .exn .keyError (st, db)
         | some (.fileM lmtime _) =>
           if pyInt lmtime < pyInt rmtime then
             match create_versioned_copy st (pyJoin st.w.local_dir f)
                 (pyInt lmtime) with
             | .exn e st1 => .exn e (st1, db)
             | .ok st1 =>
               .ok (tahoe_get st1 uri (pyJoin st.w.local_dir f)
                 ((pyInt rmtime : ℤ) : ℚ), db)
           else if pyInt rmtime < pyInt lmtime then .ok (st, true)
           else .ok (st, db)
         | none => .ok (tahoe_get st uri (pyJoin st.w.local_dir f) rmtime, db)) :=
      rfl
    rw [key]
    cases hl : lookupMeta lmd (pyJoin st.w.local_dir f) with
    | none => exact tahoe_get_nc st uri (pyJoin st.w.local_dir f) rmtime h
    | some lm =>
      cases lm with
      | dirM => exact h
      | fileM lmtime lsz =>
        by_cases h1 : pyInt lmtime < pyInt rmtime
        · simp only [if_pos h1]
          cases hc : create_versioned_copy st (pyJoin st.w.local_dir f)
              (pyInt lmtime) with
          | ok st1 =>
            have h2 : noConflictB st1.effs = true := by
              have h3 := create_versioned_copy_nc st (pyJoin st.w.local_dir f)
                (pyInt lmtime) h
              rw [hc] at h3
              exact h3
            exact tahoe_get_nc st1 uri (pyJoin st.w.local_dir f) _ h2
          | exn e st1 =>
            have h3 := create_versioned_copy_nc st (pyJoin st.w.local_dir f)
              (pyInt lmtime) h
            rw [hc] at h3
            exact h3
        · simp only [if_neg h1]
          by_cases h2 : pyInt rmtime < pyInt lmtime
          · simp only [if_pos h2]
            exact h
          · simp only [if_neg h2]
            exact h

theorem syncDirs_nc : ∀ (rmd : List (String × RMeta)) (st : St),
    noConflictB st.effs = true →
    noConflictB (syncDirs st rmd).val.effs = true := by
  intro rmd
  induction rmd with
  | nil => intro st h; exact h
  | cons q rest ih =>
    intro st h
    obtain ⟨f, m⟩ := q
    cases m with
    | dirnode =>
      show noConflictB (syncDirs st ((f, RMeta.dirnode) :: rest)).val.effs = true
      rw [syncDirs]
      cases hd : isDirFs st.fs (pyJoin st.w.local_dir f) with
      | true =>
        simp only [hd, if_true, ite_true]
        exact ih st h
      | false =>
        simp only [hd, Bool.false_eq_true, if_false, ite_false]
        cases hm : makedirs st (pyJoin st.w.local_dir f) with
        | ok st1 =>
          have h1 : noConflictB st1.effs = true := by
            have h2 := makedirs_nc st (pyJoin st.w.local_dir f) h
            rw [hm] at h2
            exact h2
          exact ih st1 h1
        | exn e st1 =>
          have h2 := makedirs_nc st (pyJoin st.w.local_dir f) h
          rw [hm] at h2
          exact h2
    | filenode rmtime sz uri =>
      show noConflictB
        (syncDirs st ((f, RMeta.filenode rmtime sz uri) :: rest)).val.effs = true
      rw [syncDirs]
      exact ih st h

theorem syncFiles_nc : ∀ (rmd : List (String × RMeta)) (st : St)
    (lmd : List (String × LMeta)) (db : Bool),
    noConflictB st.effs = true →
    noConflictB (syncFiles st lmd db rmd).val.1.effs = true := by
  intro rmd
  induction rmd with
  | nil => intro st lmd db h; exact h
  | cons q rest ih =>
    intro st lmd db h
    obtain ⟨f, m⟩ := q
    show noConflictB (syncFiles st lmd db ((f, m) :: rest)).val.1.effs = true
    rw [syncFiles]
    cases hs : sync_file_step st lmd f m db with
    | ok p =>
      have h1 : noConflictB p.1.effs = true := by
        have h2 := sync_file_step_nc st lmd f m db h
        rw [hs] at h2
        exact h2
      exact ih p.1 lmd p.2 h1
    | exn e p =>
      have h2 := sync_file_step_nc st lmd f m db h
      rw [hs] at h2
      exact h2

theorem nc_of_syncDirs_exn {rmd : List (String × RMeta)} {st : St} {e : PyErr}
    {st1 : St} (h : syncDirs st rmd = .exn e st1)
    (hst : noConflictB st.effs = true) : noConflictB st1.effs = true := by
  have h2 := syncDirs_nc rmd st hst
  rw [h] at h2
  exact h2

theorem nc_of_syncDirs_ok {rmd : List (String × RMeta)} {st : St} {st1 : St}
    (h : syncDirs st rmd = .ok st1)
    (hst : noConflictB st.effs = true) : noConflictB st1.effs = true := by
  have h2 := syncDirs_nc rmd st hst
  rw [h] at h2
  exact h2

theorem nc_of_syncFiles_exn {rmd : List (String × RMeta)} {st : St}
    {lmd : List (String × LMeta)} {db : Bool} {e : PyErr} {p : St × Bool}
    (h : syncFiles st lmd db rmd = .exn e p)
    (hst : noConflictB st.effs = true) : noConflictB p.1.effs = true := by
  have h2 := syncFiles_nc rmd st lmd db hst
  rw [h] at h2
  exact h2

theorem nc_of_syncFiles_ok {rmd : List (String × RMeta)} {st : St}
    {lmd : List (String × LMeta)} {db : Bool} {p : St × Bool}
    (h : syncFiles st lmd db rmd = .ok p)
    (hst : noConflictB st.effs = true) : noConflictB p.1.effs = true := by
  have h2 := syncFiles_nc rmd st lmd db hst
  rw [h] at h2
  exact h2

theorem sync_nc (st : St) (newId snapshot : String) (skip : Bool)
    (h : noConflictB st.effs = true) :
    noConflictB (sync st newId snapshot skip).val.effs = true := by
  cases skip with
  | true =>
    unfold sync
    split <;>
    · simp only [reduceIte]
      split
      · show noConflictB (st.effs ++ [.backup newId]) = true
        rw [noConflictB_append, h]
        rfl
      · show noConflictB (st.effs ++ [.backup newId]) = true
        rw [noConflictB_append, h]
        rfl
  | false =>
    unfold sync
    split <;>
    · simp only [reduceIte]
      split
      · rename_i hcontra
        exact absurd hcontra (by simp)
      · split
        · rename_i e1 st1 heq1
          exact nc_of_syncDirs_exn heq1 h
        · rename_i st1 heq1
          have h1 : noConflictB st1.effs = true := nc_of_syncDirs_ok heq1 h
          split
          · rename_i e2 p heq2
            exact nc_of_syncFiles_exn heq2 h1
          · rename_i st2 db heq2
            have h3 : noConflictB st2.effs = true :=
              nc_of_syncFiles_ok heq2 h1
            split
            · exact h3
            · rename_i db2 heq3
              split
              · split
                · show noConflictB (st2.effs ++ [.backup newId]) = true
                  rw [noConflictB_append, h3]
                  rfl
                · exact h3
              · split
                · show noConflictB (st2.effs ++ [.backup newId]) = true
                  rw [noConflictB_append, h3]
                  rfl
                · exact h3

theorem perform_backup_nc (st : St) (newId : String)
    (h : noConflictB st.effs = true) :
    noConflictB (perform_backup st newId).val.effs = true := by
  unfold perform_backup
  cases hc : perform_backup_call st.w st.remote with
  | error e => exact h
  | ok c => exact sync_nc st newId c.snapshot c.skip_comparison h

theorem wait_for_writes_nc (st : St) (newId : String)
    (h : noConflictB st.effs = true) :
    noConflictB (wait_for_writes st newId).val.effs = true := by
  unfold wait_for_writes
  by_cases hb : st.w.do_backup
  · simp only [hb]
    exact h
  · simp only [hb]
    exact perform_backup_nc st newId h

theorem check_for_backup_nc (st : St) (newId : String)
    (h : noConflictB st.effs = true) :
    noConflictB (check_for_backup st newId).val.effs = true := by
  unfold check_for_backup
  by_cases hb : (st.w.do_backup = true ∧ st.w.sync_state = 0)
  · rw [if_pos hb]
    exact wait_for_writes_nc _ newId h
  · rw [if_neg hb]
    exact h

theorem check_for_new_snapshot_nc (st : St) (newId : String)
    (h : noConflictB st.effs = true) :
    noConflictB (check_for_new_snapshot st newId).val.effs = true := by
  unfold check_for_new_snapshot
  split
  · exact sync_nc st newId "Latest" true h
  · split
    · exact h
    · split
      · split
        · exact h
        · exact h
      · exact h

/-- C10: no operation of the engine ever creates a conflicted copy.
`_create_conflicted_copy` (the only producer of a `conflictedCopy`
effect) is called from nowhere: every public operation — `sync` itself
with any target and flag, `perform_backup`, `check_for_backup` (the full
debounce path), `wait_for_writes`, `check_for_new_snapshot`, `start` and
`stop` — produces a trace that is free of conflicted-copy effects, so
only versioned copies are ever written. -/
theorem claim_C10_no_conflicted_copies (w : Watcher) (fs : Fs) (r : Remote)
    (newId snapshot : String) (skip : Bool) :
    noConflictB (sync ⟨w, fs, r, []⟩ newId snapshot skip).val.effs = true ∧
    noConflictB (perform_backup ⟨w, fs, r, []⟩ newId).val.effs = true ∧
    noConflictB (check_for_backup ⟨w, fs, r, []⟩ newId).val.effs = true ∧
    noConflictB (wait_for_writes ⟨w, fs, r, []⟩ newId).val.effs = true ∧
    noConflictB (check_for_new_snapshot ⟨w, fs, r, []⟩ newId).val.effs = true ∧
    noConflictB (watcher_start ⟨w, fs, r, []⟩ newId).val.effs = true ∧
    noConflictB (watcher_stop ⟨w, fs, r, []⟩).val.effs = true :=
  ⟨sync_nc _ newId snapshot skip rfl,
   perform_backup_nc _ newId rfl,
   check_for_backup_nc _ newId rfl,
   wait_for_writes_nc _ newId rfl,
   check_for_new_snapshot_nc _ newId rfl,
   sync_nc _ newId "Latest" false rfl,
   rfl⟩

end Gridsync
